import Mathlib

/-!
Verification development for the "Lone Wolf" survival-game engine
(`src/StructCode.cpp`). The source file is a header: it declares the data
model (items, inventory list, pack, wolf stats, story tree, priority event
queue, snapshots, engine) and the operation signatures, together with a few
inline definitions (the `GameEvent::operator>` comparator, `MAX_ITEMS = 10`,
the min-heap `eventQueue` declaration, the accessor getters). The operation
bodies are absent from the repository, so each operation below is modelled
from the specification's description of it; the doc comments say exactly
which declaration is being modelled.

Machine integers (`int`) are embedded as `Int`; the C++ linked lists
(`ItemNode*` chains, `PackMember*` chains) are embedded as Lean `List`s in
their insertion order; `StoryNode*` trees are embedded as an inductive tree
where `nullp` stands for `nullptr`; `std::priority_queue` is embedded by its
contents (a list in insertion order) together with minimum-extraction
operations that use the source's `operator>` comparator, matching the
`std::greater` instantiation on line 163 of the source.
-/

/-- `enum class ItemType` from the source. -/
inductive ItemType where
  | FOOD
  | HERB
  | TOOL
  | KEY_ITEM
deriving DecidableEq, Repr

/-- `enum class Role` from the source. -/
inductive Role where
  | HUNTER
  | SCOUT
  | GUARD
  | NONE
deriving DecidableEq, Repr

/-- `enum class GameState` from the source. -/
inductive GameState where
  | START_SCREEN
  | PLAYING
  | EVENT_TRIGGERED
  | GAMEOVER
  | VICTORY
deriving DecidableEq, Repr

/-- `struct ItemNode` from the source, without the intrusive `next` pointer:
the chain of nodes is embedded as a `List Item`. -/
structure Item where
  name : String
  type : ItemType
  effectValue : Int
  description : String
deriving DecidableEq, Repr

/-- `struct PackMember` from the source, without the intrusive `next`
pointer. -/
structure PackMember where
  name : String
  role : Role
  loyalty : Int
deriving DecidableEq, Repr

/-- `MAX_ITEMS = 10` from the source (`Inventory` capacity). -/
def MAX_ITEMS : Nat := 10

/-- `struct Wolf` from the source: the four stats, the inventory list and the
pack list (`packHead` chain). -/
structure Wolf where
  health : Int
  hunger : Int
  energy : Int
  reputation : Int
  inventory : List Item
  packHead : List PackMember
deriving DecidableEq, Repr

/-- Modelled from the spec: `Inventory::isFull` — "length == capacity (10)".
The inventory is its list of items; `itemCount` is the list length. -/
def isFull (inv : List Item) : Bool :=
  inv.length == MAX_ITEMS

/-- Modelled from the spec: `Inventory::addItem` — "fails (returns false, no
mutation) if already at capacity; otherwise appends to the end, preserving
insertion order, and succeeds". Returns the new inventory and the `bool`
result. -/
def addItem (inv : List Item) (it : Item) : List Item × Bool :=
  if MAX_ITEMS ≤ inv.length then (inv, false)
  else (inv ++ [it], true)

/-- Runs a whole sequence of `addItem` requests, keeping only the inventory
(each call's `bool` result is discarded, as a driver loop would). -/
def foldAdds (inv : List Item) (reqs : List Item) : List Item :=
  reqs.foldl (fun acc it => (addItem acc it).1) inv

/-- Modelled from the spec: the item-category-to-stat mapping that `useItem`
applies, which the source leaves open and the spec (§9) resolves as
FOOD→hunger, HERB→health. A FOOD item relieves hunger by its effect value; a
HERB item adds its effect value to health; TOOL and KEY_ITEM items have no
stat effect in core scope. -/
def applyItemEffect (w : Wolf) (it : Item) : Wolf :=
  match it.type with
  | ItemType.FOOD => { w with hunger := w.hunger - it.effectValue }
  | ItemType.HERB => { w with health := w.health + it.effectValue }
  | ItemType.TOOL => w
  | ItemType.KEY_ITEM => w

/-- Modelled from the spec: `Inventory::useItem` — "finds first item by name;
if absent, fails (false). If present: applies effectValue to the player stat
implied by category, removes the item from the inventory, returns true".
`none` is the failure (`false` / NotFound) result, with no mutation. -/
def useItem (inv : List Item) (w : Wolf) (itemName : String) :
    Option (List Item × Wolf) :=
  match inv with
  | [] => none
  | it :: rest =>
    if it.name = itemName then some (rest, applyItemEffect w it)
    else
      match useItem rest w itemName with
      | some (rest2, w2) => some (it :: rest2, w2)
      | none => none

/-- Modelled from the spec: `Wolf::isAlive` — "health > 0". -/
def isAlive (w : Wolf) : Bool :=
  0 < w.health

/-- Modelled from the spec: `Wolf::takeDamage` — "reduces health by `amount`,
clamped at a floor of 0". -/
def takeDamage (w : Wolf) (amount : Int) : Wolf :=
  { w with health := max (w.health - amount) 0 }

/-- Modelled from the spec: `Wolf::feed` — "reduces hunger by `amount`,
clamped at a floor of 0". -/
def feed (w : Wolf) (amount : Int) : Wolf :=
  { w with hunger := max (w.hunger - amount) 0 }

/-- Modelled from the spec: `Wolf::updateStats` — "sets stats directly
(assignment, not delta)". -/
def updateStats (w : Wolf) (h hu en rep : Int) : Wolf :=
  { w with health := h, hunger := hu, energy := en, reputation := rep }

/-- `struct StoryNode` from the source: id, scenario text, the two choice
labels, the two child pointers (`nullp` embeds `nullptr`), the ending flag
and the ending text. The whole pointer structure is embedded as a tree
value. -/
inductive SNode where
  | nullp : SNode
  | node (id : Int) (scenarioText choiceAText choiceBText : String)
      (left right : SNode) (isEnding : Bool) (endingDescription : String) :
      SNode
deriving DecidableEq, Repr

/-- The `id` field of a `StoryNode` (0 for the null pointer, which has no
field; it is never read on `nullp` in the properties below). -/
def SNode.nodeId : SNode → Int
  | SNode.nullp => 0
  | SNode.node i _ _ _ _ _ _ _ => i

/-- The `left` child pointer of a `StoryNode`. -/
def SNode.leftChild : SNode → SNode
  | SNode.nullp => SNode.nullp
  | SNode.node _ _ _ _ l _ _ _ => l

/-- The `right` child pointer of a `StoryNode`. -/
def SNode.rightChild : SNode → SNode
  | SNode.nullp => SNode.nullp
  | SNode.node _ _ _ _ _ r _ _ => r

/-- The `isEnding` flag of a `StoryNode` (`false` on the null pointer). -/
def SNode.ending : SNode → Bool
  | SNode.nullp => false
  | SNode.node _ _ _ _ _ _ e _ => e

/-- `class StoryTree` from the source: the root pointer and the
`currentScenario` pointer. -/
structure StoryTree where
  root : SNode
  currentScenario : SNode
deriving DecidableEq, Repr

/-- Modelled from the spec: `StoryTree::findNode` — the "helper for finding a
node by ID (for loading games)", a depth-first full-tree search for a node
with matching id. -/
def findNode : SNode → Int → Option SNode
  | SNode.nullp, _ => none
  | SNode.node i s a b l r e d, target =>
    if i = target then some (SNode.node i s a b l r e d)
    else
      match findNode l target with
      | some m => some m
      | none => findNode r target

/-- Modelled from the spec: `StoryTree::moveToLeft` — "sets current =
current.leftChild if present and current is not an ending, else no-op";
"once there [an ending], further moves are no-ops". -/
def moveToLeft (st : StoryTree) : StoryTree :=
  match st.currentScenario with
  | SNode.nullp => st
  | SNode.node _ _ _ _ l _ e _ =>
    if e then st
    else
      match l with
      | SNode.nullp => st
      | ln => { st with currentScenario := ln }

/-- Modelled from the spec: `StoryTree::moveToRight` — symmetric to
`moveToLeft` for the right child. -/
def moveToRight (st : StoryTree) : StoryTree :=
  match st.currentScenario with
  | SNode.nullp => st
  | SNode.node _ _ _ _ _ r e _ =>
    if e then st
    else
      match r with
      | SNode.nullp => st
      | rn => { st with currentScenario := rn }

/-- Modelled from the spec: `StoryTree::setCurrentNode` — "performs a
full-tree search (depth-first) for a node with matching id and repositions
current there — used to restore position from a saved id"; when no node has
that id the position is left unchanged (the NotFound failure is signalled to
the caller, who sees no mutation). -/
def setCurrentNode (st : StoryTree) (id : Int) : StoryTree :=
  match findNode st.root id with
  | some n => { st with currentScenario := n }
  | none => st

/-- Modelled from the spec: `StoryTree::isAtEnding` — whether the current
node's ending flag is set. -/
def isAtEnding (st : StoryTree) : Bool :=
  st.currentScenario.ending

/-- `struct GameEvent` from the source: title, description, priority
(1 = most urgent). -/
structure GameEvent where
  title : String
  description : String
  priority : Int
deriving DecidableEq, Repr

/-- `GameEvent::operator>` from the source (lines 154-156): events compare by
priority, so that with `std::greater` the smallest priority sits at the top
of the queue. -/
def GameEvent.gt (a b : GameEvent) : Bool :=
  b.priority < a.priority

/-- The error signals of the error-handling design (§7) that the queue and
history operations below can return to the caller. -/
inductive CoreError where
  | EmptyQueue
  | EmptyHistory
deriving DecidableEq, Repr

/-- The top of the min-heap `eventQueue` (source line 163:
`std::priority_queue` over `std::greater`, hence `GameEvent::operator>`):
the first element of the contents list that no later element beats under the
comparator, i.e. a minimum-priority element. -/
def findMin : List GameEvent → Option GameEvent
  | [] => none
  | e :: rest =>
    match findMin rest with
    | none => some e
    | some m => if GameEvent.gt e m then some m else some e

/-- Removal of the heap top from the `eventQueue` contents: returns the
minimum-priority element together with the remaining contents. -/
def extractMin : List GameEvent → Option (GameEvent × List GameEvent)
  | [] => none
  | e :: rest =>
    match extractMin rest with
    | none => some (e, [])
    | some (m, rest2) =>
      if GameEvent.gt e m then some (m, e :: rest2) else some (e, rest)

/-- Modelled from the spec: `EventManager::addEvent` — "inserts"; the
queue contents are kept in insertion order, the heap ordering living in
`findMin`/`extractMin`. Insertion has no capacity check and always
succeeds. -/
def addEvent (q : List GameEvent) (title desc : String) (priority : Int) :
    List GameEvent :=
  q ++ [{ title := title, description := desc, priority := priority }]

/-- Modelled from the spec: `EventManager::hasPendingEvents` —
"non-emptiness check". -/
def hasPendingEvents (q : List GameEvent) : Bool :=
  !q.isEmpty

/-- Modelled from the spec: `EventManager::peekNextEvent` — "returns the
minimum-priority element without removing it"; on an empty queue the call is
rejected with the EmptyQueue error (§7: recoverable failure signal, never an
abort). The result carries the queue contents after the call, which peek
leaves unchanged. -/
def peekNextEvent (q : List GameEvent) :
    Except CoreError (GameEvent × List GameEvent) :=
  match findMin q with
  | none => Except.error CoreError.EmptyQueue
  | some m => Except.ok (m, q)

/-- Modelled from the spec: `EventManager::processNextEvent` — "removes and
applies the minimum element's effect to the player"; the effect semantics
are event-specific content outside core scope, so the effect application is
a parameter `ap`. On an empty queue the EmptyQueue failure is signalled. -/
def processNextEvent (ap : GameEvent → Wolf → Wolf) (q : List GameEvent)
    (w : Wolf) : Except CoreError (GameEvent × List GameEvent × Wolf) :=
  match extractMin q with
  | none => Except.error CoreError.EmptyQueue
  | some (m, rest) => Except.ok (m, rest, ap m w)

/-- `struct GameSnapshot` from the source: day, the three survival stats and
the current story node id — explicitly not the inventory, pack or
reputation. -/
structure GameSnapshot where
  day : Int
  health : Int
  hunger : Int
  energy : Int
  currentNodeID : Int
deriving DecidableEq, Repr

/-- `class GameEngine` from the source: the player, the story tree, the
event queue contents, the LIFO undo stack (head = top), the FIFO action
queue (head = front), the day counter and the game state. -/
structure GameEngine where
  player : Wolf
  story : StoryTree
  events : List GameEvent
  historyStack : List GameSnapshot
  actionQueue : List String
  currentDay : Int
  state : GameState
deriving DecidableEq, Repr

/-- Modelled from the spec: `GameEngine::saveState` — "captures a
GameSnapshot of (day, health, hunger, energy, currentStoryNodeId) and pushes
it onto the undo stack". -/
def saveState (e : GameEngine) : GameEngine :=
  { e with
    historyStack :=
      { day := e.currentDay
        health := e.player.health
        hunger := e.player.hunger
        energy := e.player.energy
        currentNodeID := e.story.currentScenario.nodeId } :: e.historyStack }

/-- Modelled from the spec: `GameEngine::undoLastMove` — "pops the most
recent snapshot (fails with EmptyHistory if the stack is empty) and restores
day/health/hunger/energy/story-position from it via StoryTree.setCurrentNode
and Wolf.updateStats. Inventory, pack, and reputation are NOT restored". -/
def undoLastMove (e : GameEngine) : Except CoreError GameEngine :=
  match e.historyStack with
  | [] => Except.error CoreError.EmptyHistory
  | s :: rest =>
    Except.ok
      { e with
        currentDay := s.day
        player := updateStats e.player s.health s.hunger s.energy
          e.player.reputation
        story := setCurrentNode e.story s.currentNodeID
        historyStack := rest }

/-- Modelled from the spec: the persisted session file (§6) — "an
implementer-defined serialization of {day, health, hunger, energy,
reputation, inventory item list, pack member list, current story node id,
undo-history snapshots, pending action queue}", abstracted from bytes to a
record, since the source fixes no byte format. -/
structure SavedSession where
  day : Int
  health : Int
  hunger : Int
  energy : Int
  reputation : Int
  items : List Item
  pack : List PackMember
  currentNodeID : Int
  history : List GameSnapshot
  actions : List String
deriving DecidableEq, Repr

/-- Modelled from the spec: `GameEngine::saveToFile` — serializes the full
session to the persisted form. -/
def saveToFile (e : GameEngine) : SavedSession :=
  { day := e.currentDay
    health := e.player.health
    hunger := e.player.hunger
    energy := e.player.energy
    reputation := e.player.reputation
    items := e.player.inventory
    pack := e.player.packHead
    currentNodeID := e.story.currentScenario.nodeId
    history := e.historyStack
    actions := e.actionQueue }

/-- Modelled from the spec: `GameEngine::loadFromFile` — the file read
either fails (`none`: unreadable or corrupt, the IOFailure case, which
"must leave prior in-memory state unmodified") or yields a parsed
`SavedSession`, which "must fully reconstruct an equivalent in-memory state,
including re-pointing StoryTree's current pointer via `setCurrentNode`"; a
session naming a story node id absent from the engine's tree also leaves the
state unmodified (load is all-or-nothing). -/
def loadFromFile (e : GameEngine) (file : Option SavedSession) : GameEngine :=
  match file with
  | none => e
  | some s =>
    match findNode e.story.root s.currentNodeID with
    | none => e
    | some n =>
      { player :=
          { health := s.health
            hunger := s.hunger
            energy := s.energy
            reputation := s.reputation
            inventory := s.items
            packHead := s.pack }
        story := { root := e.story.root, currentScenario := n }
        events := e.events
        historyStack := s.history
        actionQueue := s.actions
        currentDay := s.day
        state := e.state }

/-! ## Concrete fixtures used by witnesses and examples -/

/-- A concrete FOOD item, as in the spec's Berry test. -/
def berryItem : Item :=
  { name := "Berry", type := ItemType.FOOD, effectValue := 20,
    description := "A ripe berry" }

/-- A concrete wolf with health 40, as in the spec's damage test. -/
def wolf40 : Wolf :=
  { health := 40, hunger := 50, energy := 60, reputation := 70,
    inventory := [], packHead := [] }

/-- A concrete FOOD item that shares the name "Berry" with `berryItem` but
has a different effect value (names are not required unique in an
inventory). -/
def weakBerry : Item :=
  { name := "Berry", type := ItemType.FOOD, effectValue := 5,
    description := "A shriveled berry" }

/-- A concrete normal-priority (3) event. -/
def stormEvent : GameEvent :=
  { title := "Storm", description := "A storm hits the den", priority := 3 }

/-- A concrete critical-priority (1) event. -/
def attackEvent : GameEvent :=
  { title := "Attack", description := "A rival pack attacks", priority := 1 }

/-- A concrete urgent-priority (2) event. -/
def forageEvent : GameEvent :=
  { title := "Forage", description := "Food is found nearby", priority := 2 }

/-- The queue contents after adding events with priorities 3, 1, 2 in that
insertion order, as in the spec's event-ordering test. -/
def sampleQueue : List GameEvent :=
  addEvent
    (addEvent (addEvent [] "Storm" "A storm hits the den" 3)
      "Attack" "A rival pack attacks" 1)
    "Forage" "Food is found nearby" 2

/-- A concrete ending story node (id 7). -/
def endingNode : SNode :=
  SNode.node 7 "The long winter passes" "" "" SNode.nullp SNode.nullp true
    "You survived the winter"

/-- A concrete root story node (id 0) whose left child is the ending node. -/
def rootNode : SNode :=
  SNode.node 0 "Dawn in the forest" "Hunt" "Rest" endingNode SNode.nullp
    false ""

/-- A concrete story tree positioned at its root. -/
def sampleTree : StoryTree :=
  { root := rootNode, currentScenario := rootNode }

/-- The same story tree positioned at the ending node. -/
def endingTree : StoryTree :=
  { root := rootNode, currentScenario := endingNode }

/-- A concrete engine state used by witnesses. -/
def sampleEngine : GameEngine :=
  { player := wolf40
    story := sampleTree
    events := sampleQueue
    historyStack := []
    actionQueue := ["gather wood"]
    currentDay := 1
    state := GameState.PLAYING }

/-- A concrete engine state with non-trivial contents in every component,
used by the save/load witnesses. -/
def richEngine : GameEngine :=
  { player :=
      { health := 77, hunger := 33, energy := 44, reputation := 55,
        inventory := [berryItem],
        packHead := [{ name := "Swift", role := Role.SCOUT, loyalty := 50 }] }
    story := endingTree
    events := sampleQueue
    historyStack :=
      [{ day := 1, health := 80, hunger := 20, energy := 90,
         currentNodeID := 0 }]
    actionQueue := ["track prey"]
    currentDay := 3
    state := GameState.PLAYING }

/-- A concrete freshly constructed engine that a saved session is loaded
into, sharing the authored story tree. -/
def freshEngine : GameEngine :=
  { player :=
      { health := 100, hunger := 0, energy := 100, reputation := 50,
        inventory := [], packHead := [] }
    story := sampleTree
    events := []
    historyStack := []
    actionQueue := []
    currentDay := 1
    state := GameState.START_SCREEN }

/-! ## Inventory lemmas -/

/-- One `addItem` call keeps the inventory within capacity. -/
theorem addItem_fst_length_le (inv : List Item) (it : Item)
    (h : inv.length ≤ MAX_ITEMS) :
    ((addItem inv it).1).length ≤ MAX_ITEMS := by
  by_cases hc : MAX_ITEMS ≤ inv.length
  · simpa [addItem, hc] using h
  · simp only [addItem, hc, if_neg, if_false, List.length_append,
      List.length_cons, List.length_nil]
    omega

/-- Any sequence of `addItem` calls keeps the inventory within capacity. -/
theorem foldAdds_length_le (reqs : List Item) :
    ∀ inv : List Item, inv.length ≤ MAX_ITEMS →
      (foldAdds inv reqs).length ≤ MAX_ITEMS := by
  induction reqs with
  | nil => intro inv h; simpa [foldAdds] using h
  | cons r rs ih =>
    intro inv h
    have h2 := addItem_fst_length_le inv r h
    simpa [foldAdds] using ih _ h2

/-- C1: for every sequence of addItem calls starting from an inventory within
capacity, the number of stored items never exceeds 10; addItem on a full
inventory (10 items) returns false and leaves the contents and their order
unchanged; addItem below capacity appends the new item at the end, preserving
the existing items and their order, and returns true. -/
theorem C1_inventory_capacity :
    (∀ (inv reqs : List Item), inv.length ≤ MAX_ITEMS →
      (foldAdds inv reqs).length ≤ MAX_ITEMS) ∧
    (∀ (inv : List Item) (it : Item), inv.length = MAX_ITEMS →
      addItem inv it = (inv, false)) ∧
    (∀ (inv : List Item) (it : Item), inv.length < MAX_ITEMS →
      addItem inv it = (inv ++ [it], true)) := by
  refine ⟨fun inv reqs h => foldAdds_length_le reqs inv h, ?_, ?_⟩
  · intro inv it h
    simp [addItem, h]
  · intro inv it h
    simp [addItem, Nat.not_le.mpr h]

/-- Witness for C1 at concrete inputs: twelve adds to an empty inventory stay
within capacity, an add to a full 10-item inventory is rejected without
mutation, and an add to an empty inventory appends and succeeds. -/
theorem C1_witness :
    (foldAdds [] (List.replicate 12 berryItem)).length ≤ MAX_ITEMS ∧
    addItem (List.replicate 10 berryItem) berryItem =
      (List.replicate 10 berryItem, false) ∧
    addItem [] berryItem = ([berryItem], true) :=
  ⟨C1_inventory_capacity.1 [] (List.replicate 12 berryItem) (by decide),
   C1_inventory_capacity.2.1 (List.replicate 10 berryItem) berryItem
     (by decide),
   C1_inventory_capacity.2.2 [] berryItem (by decide)⟩

/-- C5: takeDamage subtracts the damage from health with a floor of 0; on the
concrete wolf with health 40, takeDamage 150 leaves health 0 and isAlive
false; and isAlive holds exactly when health is positive. -/
theorem C5_takeDamage_clamps :
    (∀ (w : Wolf) (amount : Int),
      (takeDamage w amount).health = max (w.health - amount) 0) ∧
    ((takeDamage wolf40 150).health = 0 ∧
      isAlive (takeDamage wolf40 150) = false) ∧
    (∀ w : Wolf, isAlive w = true ↔ 0 < w.health) := by
  refine ⟨fun w amount => rfl, by decide, fun w => ?_⟩
  simp [isAlive]

/-- C10: addEvent always succeeds regardless of the queue size — the new
event is stored (the contents grow by exactly that event, with no capacity
bound), and hasPendingEvents is true immediately afterwards. -/
theorem C10_addEvent_total :
    ∀ (q : List GameEvent) (t d : String) (p : Int),
      (addEvent q t d p).length = q.length + 1 ∧
      ({ title := t, description := d, priority := p } : GameEvent)
        ∈ addEvent q t d p ∧
      hasPendingEvents (addEvent q t d p) = true := by
  intro q t d p
  refine ⟨by simp [addEvent], by simp [addEvent], ?_⟩
  simp [addEvent, hasPendingEvents]

/-! ## Event-queue lemmas -/

/-- The heap top exists unless the queue is empty. -/
theorem findMin_eq_none : ∀ {q : List GameEvent}, findMin q = none → q = []
  | [], _ => rfl
  | e :: rest, h => by
    simp only [findMin] at h
    cases hfm : findMin rest with
    | none => rw [hfm] at h; exact absurd h (by simp)
    | some m =>
      rw [hfm] at h
      by_cases hg : GameEvent.gt e m = true <;> simp [hg] at h

/-- Unfolding equation for `findMin` on a cons cell whose tail has no
minimum (empty tail). -/
theorem findMin_cons_none (e : GameEvent) (rest : List GameEvent)
    (h : findMin rest = none) : findMin (e :: rest) = some e := by
  simp [findMin, h]

/-- Unfolding equation for `findMin` on a cons cell whose tail has minimum
`m`. -/
theorem findMin_cons_some (e : GameEvent) (rest : List GameEvent)
    (m : GameEvent) (h : findMin rest = some m) :
    findMin (e :: rest) = if GameEvent.gt e m then some m else some e := by
  simp [findMin, h]

/-- Unfolding equation for `extractMin` on a cons cell with empty tail. -/
theorem extractMin_cons_none (e : GameEvent) (rest : List GameEvent)
    (h : extractMin rest = none) : extractMin (e :: rest) = some (e, []) := by
  simp [extractMin, h]

/-- Unfolding equation for `extractMin` on a cons cell whose tail extracts
to `(m, r)`. -/
theorem extractMin_cons_some (e : GameEvent) (rest r : List GameEvent)
    (m : GameEvent) (h : extractMin rest = some (m, r)) :
    extractMin (e :: rest) =
      if GameEvent.gt e m then some (m, e :: r) else some (e, rest) := by
  simp [extractMin, h]

/-- The heap top is an element of the queue contents. -/
theorem findMin_mem :
    ∀ (q : List GameEvent) (m : GameEvent), findMin q = some m → m ∈ q := by
  intro q
  induction q with
  | nil => intro m h; simp [findMin] at h
  | cons e rest ih =>
    intro m h
    cases hfm : findMin rest with
    | none =>
      rw [findMin_cons_none e rest hfm] at h
      injection h with h
      subst h
      exact List.mem_cons_self e rest
    | some m' =>
      rw [findMin_cons_some e rest m' hfm] at h
      by_cases hg : GameEvent.gt e m' = true
      · rw [if_pos hg] at h
        injection h with h
        subst h
        exact List.mem_cons_of_mem e (ih m' hfm)
      · rw [if_neg hg] at h
        injection h with h
        subst h
        exact List.mem_cons_self e rest

/-- The heap top has minimal priority among the queue contents. -/
theorem findMin_le :
    ∀ (q : List GameEvent) (m : GameEvent), findMin q = some m →
      ∀ x ∈ q, m.priority ≤ x.priority := by
  intro q
  induction q with
  | nil => intro m h; simp [findMin] at h
  | cons e rest ih =>
    intro m h x hx
    cases hfm : findMin rest with
    | none =>
      rw [findMin_cons_none e rest hfm] at h
      injection h with h
      subst h
      have hrest := findMin_eq_none hfm
      subst hrest
      rcases List.mem_singleton.mp hx with rfl
      exact le_refl _
    | some m' =>
      rw [findMin_cons_some e rest m' hfm] at h
      by_cases hg : GameEvent.gt e m' = true
      · rw [if_pos hg] at h
        injection h with h
        subst h
        simp only [GameEvent.gt, decide_eq_true_eq] at hg
        rcases List.mem_cons.mp hx with rfl | hx2
        · exact le_of_lt hg
        · exact ih m' hfm x hx2
      · rw [if_neg hg] at h
        injection h with h
        subst h
        simp only [GameEvent.gt, decide_eq_true_eq, not_lt] at hg
        rcases List.mem_cons.mp hx with rfl | hx2
        · exact le_refl _
        · exact le_trans hg (ih m' hfm x hx2)

/-- `extractMin` removes exactly the event that `findMin` reports at the
top of the heap. -/
theorem extractMin_map_fst :
    ∀ q : List GameEvent, (extractMin q).map Prod.fst = findMin q := by
  intro q
  induction q with
  | nil => rfl
  | cons e rest ih =>
    cases hem : extractMin rest with
    | none =>
      have hf : findMin rest = none := by rw [← ih, hem]; rfl
      rw [extractMin_cons_none e rest hem, findMin_cons_none e rest hf]
      rfl
    | some p =>
      obtain ⟨m', r'⟩ := p
      have hf : findMin rest = some m' := by rw [← ih, hem]; rfl
      rw [extractMin_cons_some e rest r' m' hem, findMin_cons_some e rest m' hf]
      by_cases hg : GameEvent.gt e m' = true <;> simp [hg]

/-- The event removed by `extractMin` is in the queue contents. -/
theorem extractMin_mem (q : List GameEvent) (m : GameEvent)
    (rest : List GameEvent) (h : extractMin q = some (m, rest)) : m ∈ q := by
  have hf : findMin q = some m := by rw [← extractMin_map_fst, h]; rfl
  exact findMin_mem q m hf

/-- The event removed by `extractMin` has minimal priority. -/
theorem extractMin_le (q : List GameEvent) (m : GameEvent)
    (rest : List GameEvent) (h : extractMin q = some (m, rest)) :
    ∀ x ∈ q, m.priority ≤ x.priority := by
  have hf : findMin q = some m := by rw [← extractMin_map_fst, h]; rfl
  exact findMin_le q m hf

/-- C2: after adding exactly the three events with priorities 3, 1, 2 (in
that insertion order), three successive processNextEvent calls remove and
apply the events in priority order 1 (Attack), then 2 (Forage), then
3 (Storm); and in general processNextEvent and peekNextEvent always select
an event of the queue with the numerically smallest priority. -/
theorem C2_events_priority_order :
    (∀ (ap : GameEvent → Wolf → Wolf) (w : Wolf),
      processNextEvent ap sampleQueue w =
        Except.ok (attackEvent, [stormEvent, forageEvent], ap attackEvent w) ∧
      processNextEvent ap [stormEvent, forageEvent] w =
        Except.ok (forageEvent, [stormEvent], ap forageEvent w) ∧
      processNextEvent ap [stormEvent] w =
        Except.ok (stormEvent, [], ap stormEvent w)) ∧
    (attackEvent.priority = 1 ∧ forageEvent.priority = 2 ∧
      stormEvent.priority = 3) ∧
    (∀ (ap : GameEvent → Wolf → Wolf) (q : List GameEvent) (w : Wolf)
      (m : GameEvent) (rest : List GameEvent) (w' : Wolf),
      processNextEvent ap q w = Except.ok (m, rest, w') →
      m ∈ q ∧ ∀ x ∈ q, m.priority ≤ x.priority) ∧
    (∀ (q q' : List GameEvent) (m : GameEvent),
      peekNextEvent q = Except.ok (m, q') →
      m ∈ q ∧ ∀ x ∈ q, m.priority ≤ x.priority) := by
  refine ⟨fun ap w => ⟨rfl, rfl, rfl⟩, ⟨rfl, rfl, rfl⟩, ?_, ?_⟩
  · intro ap q w m rest w' h
    unfold processNextEvent at h
    cases hem : extractMin q with
    | none => rw [hem] at h; exact absurd h (by simp)
    | some p =>
      obtain ⟨m0, r0⟩ := p
      rw [hem] at h
      injection h with h
      injection h with h1 h2
      subst h1
      exact ⟨extractMin_mem q m0 r0 hem, extractMin_le q m0 r0 hem⟩
  · intro q q' m h
    unfold peekNextEvent at h
    cases hfm : findMin q with
    | none => rw [hfm] at h; exact absurd h (by simp)
    | some m0 =>
      rw [hfm] at h
      injection h with h
      injection h with h1 h2
      subst h1
      exact ⟨findMin_mem q m0 hfm, findMin_le q m0 hfm⟩

/-- Witness for C2 at a concrete input: the first processNextEvent call on
the [3,1,2] queue consumes the priority-1 event, which is in the queue and
minimal. -/
theorem C2_witness :
    attackEvent ∈ sampleQueue ∧
      ∀ x ∈ sampleQueue, attackEvent.priority ≤ x.priority :=
  C2_events_priority_order.2.2.1 (fun _ w => w) sampleQueue wolf40
    attackEvent [stormEvent, forageEvent] wolf40 rfl

/-- C8: peekNextEvent on an empty queue is rejected with the explicit
EmptyQueue failure signal (a returned error, not an abort); on a non-empty
queue it succeeds and returns a minimum-priority event of the queue while
leaving the queue contents unchanged. -/
theorem C8_peek_empty_rejected :
    (peekNextEvent [] = Except.error CoreError.EmptyQueue) ∧
    (∀ q : List GameEvent, q ≠ [] →
      ∃ m, peekNextEvent q = Except.ok (m, q)) ∧
    (∀ (q q' : List GameEvent) (m : GameEvent),
      peekNextEvent q = Except.ok (m, q') →
      q' = q ∧ m ∈ q ∧ ∀ x ∈ q, m.priority ≤ x.priority) := by
  refine ⟨rfl, ?_, ?_⟩
  · intro q hq
    cases hfm : findMin q with
    | none => exact absurd (findMin_eq_none hfm) hq
    | some m => exact ⟨m, by unfold peekNextEvent; rw [hfm]⟩
  · intro q q' m h
    unfold peekNextEvent at h
    cases hfm : findMin q with
    | none => rw [hfm] at h; exact absurd h (by simp)
    | some m0 =>
      rw [hfm] at h
      injection h with h
      injection h with h1 h2
      subst h1
      subst h2
      exact ⟨rfl, findMin_mem q m0 hfm, findMin_le q m0 hfm⟩

/-- Witness for C8 at concrete inputs: peeking the [3,1,2] queue returns the
priority-1 event and leaves the contents unchanged. -/
theorem C8_witness :
    sampleQueue = sampleQueue ∧ attackEvent ∈ sampleQueue ∧
      ∀ x ∈ sampleQueue, attackEvent.priority ≤ x.priority :=
  C8_peek_empty_rejected.2.2 sampleQueue sampleQueue attackEvent rfl

/-- C7: on any StoryTree state whose current node is an ending, both
moveToLeft and moveToRight leave the state unchanged (in particular this
holds for every reachable state); on a non-ending current node each move
goes to the corresponding child when it is present and is a no-op when the
child is absent. -/
theorem C7_ending_moves_noop :
    (∀ st : StoryTree, st.currentScenario.ending = true →
      moveToLeft st = st ∧ moveToRight st = st) ∧
    (∀ st : StoryTree, st.currentScenario.ending = false →
      (st.currentScenario.leftChild ≠ SNode.nullp →
        (moveToLeft st).currentScenario = st.currentScenario.leftChild) ∧
      (st.currentScenario.leftChild = SNode.nullp → moveToLeft st = st) ∧
      (st.currentScenario.rightChild ≠ SNode.nullp →
        (moveToRight st).currentScenario = st.currentScenario.rightChild) ∧
      (st.currentScenario.rightChild = SNode.nullp → moveToRight st = st)) := by
  constructor
  · intro st h
    obtain ⟨rt, cur⟩ := st
    cases cur with
    | nullp => simp [SNode.ending] at h
    | node i s a b l r e d =>
      simp only [SNode.ending] at h
      subst h
      exact ⟨by simp [moveToLeft], by simp [moveToRight]⟩
  · intro st h
    obtain ⟨rt, cur⟩ := st
    cases cur with
    | nullp =>
      refine ⟨fun hl => absurd rfl hl, fun _ => rfl,
        fun hr => absurd rfl hr, fun _ => rfl⟩
    | node i s a b l r e d =>
      simp only [SNode.ending] at h
      subst h
      refine ⟨?_, ?_, ?_, ?_⟩
      · intro hl
        cases l with
        | nullp => exact absurd rfl hl
        | node li ls la lb ll lr le ld => simp [moveToLeft, SNode.leftChild]
      · intro hl
        simp only [SNode.leftChild] at hl
        subst hl
        simp [moveToLeft]
      · intro hr
        cases r with
        | nullp => exact absurd rfl hr
        | node ri rs ra rb rl rr re rd => simp [moveToRight, SNode.rightChild]
      · intro hr
        simp only [SNode.rightChild] at hr
        subst hr
        simp [moveToRight]

/-- Witness for C7 at concrete inputs: moves are no-ops on the ending node
of the sample tree, and from the root (not an ending, left child present)
moveToLeft goes to the left child. -/
theorem C7_witness :
    (moveToLeft endingTree = endingTree ∧
      moveToRight endingTree = endingTree) ∧
    (moveToLeft sampleTree).currentScenario =
      sampleTree.currentScenario.leftChild :=
  ⟨C7_ending_moves_noop.1 endingTree rfl,
   (C7_ending_moves_noop.2 sampleTree rfl).1 (by decide)⟩

/-! ## Story-tree search lemma -/

/-- A node found by id carries that id. -/
theorem findNode_nodeId :
    ∀ (t : SNode) (i : Int) (n : SNode),
      findNode t i = some n → n.nodeId = i := by
  intro t
  induction t with
  | nullp => intro i n h; simp [findNode] at h
  | node id s a b l r e d ihl ihr =>
    intro i n h
    simp only [findNode] at h
    by_cases hid : id = i
    · rw [if_pos hid] at h
      injection h with h
      subst h
      simpa [SNode.nodeId] using hid
    · rw [if_neg hid] at h
      cases hl : findNode l i with
      | some m =>
        rw [hl] at h
        injection h with h
        subst h
        exact ihl i m hl
      | none =>
        rw [hl] at h
        exact ihr i n h

/-- C3: from any engine state whose story position can be recovered by its
id (unique ids), calling saveState, then mutating the player's health (and
possibly also reputation, inventory and pack, and moving within the story
tree), then calling undoLastMove, restores health — together with hunger,
energy, day and story position — to the values at the saveState call, while
the inventory, pack and reputation changes made after saveState are left in
place. -/
theorem C3_undo_restores_stats_not_inventory :
    ∀ (e : GameEngine) (h' rep' : Int) (f : List Item → List Item)
      (g : List PackMember → List PackMember) (st' : StoryTree),
      st'.root = e.story.root →
      findNode e.story.root e.story.currentScenario.nodeId =
        some e.story.currentScenario →
      undoLastMove
        { saveState e with
            player :=
              { (saveState e).player with
                  health := h', reputation := rep',
                  inventory := f (saveState e).player.inventory,
                  packHead := g (saveState e).player.packHead }
            story := st' } =
      Except.ok
        { player :=
            { health := e.player.health
              hunger := e.player.hunger
              energy := e.player.energy
              reputation := rep'
              inventory := f e.player.inventory
              packHead := g e.player.packHead }
          story := { root := st'.root, currentScenario := e.story.currentScenario }
          events := e.events
          historyStack := e.historyStack
          actionQueue := e.actionQueue
          currentDay := e.currentDay
          state := e.state } := by
  intro e h' rep' f g st' hroot hfind
  simp only [saveState, undoLastMove, updateStats, setCurrentNode]
  rw [hroot, hfind]

/-- Witness for C3 at a concrete input: on the sample engine, save, then set
health to 5 and reputation to 99, prepend a berry to the inventory and move
left in the story; undo restores health 40, hunger 50, energy 60, day 1 and
the root story position, while the berry and the reputation change stay. -/
theorem C3_witness :
    undoLastMove
      { saveState sampleEngine with
          player :=
            { (saveState sampleEngine).player with
                health := 5, reputation := 99,
                inventory :=
                  (fun inv => berryItem :: inv)
                    (saveState sampleEngine).player.inventory,
                packHead :=
                  (fun p => p) (saveState sampleEngine).player.packHead }
          story := moveToLeft sampleTree } =
    Except.ok
      { player :=
          { health := 40
            hunger := 50
            energy := 60
            reputation := 99
            inventory := [berryItem]
            packHead := [] }
        story := { root := rootNode, currentScenario := rootNode }
        events := sampleQueue
        historyStack := []
        actionQueue := ["gather wood"]
        currentDay := 1
        state := GameState.PLAYING } :=
  C3_undo_restores_stats_not_inventory sampleEngine 5 99
    (fun inv => berryItem :: inv) (fun p => p) (moveToLeft sampleTree)
    rfl rfl

/-- C4: saving any engine and loading the written session into a fresh
engine that carries the same authored story tree (and in which the saved
story node id is findable) reproduces the original day counter, all four
player stats, the inventory contents, the pack contents, and the current
story node id. -/
theorem C4_save_load_roundtrip :
    ∀ (e fresh : GameEngine) (n : SNode),
      fresh.story.root = e.story.root →
      findNode e.story.root e.story.currentScenario.nodeId = some n →
      (loadFromFile fresh (some (saveToFile e))).currentDay = e.currentDay ∧
      (loadFromFile fresh (some (saveToFile e))).player.health =
        e.player.health ∧
      (loadFromFile fresh (some (saveToFile e))).player.hunger =
        e.player.hunger ∧
      (loadFromFile fresh (some (saveToFile e))).player.energy =
        e.player.energy ∧
      (loadFromFile fresh (some (saveToFile e))).player.reputation =
        e.player.reputation ∧
      (loadFromFile fresh (some (saveToFile e))).player.inventory =
        e.player.inventory ∧
      (loadFromFile fresh (some (saveToFile e))).player.packHead =
        e.player.packHead ∧
      (loadFromFile fresh (some (saveToFile e))).story.currentScenario.nodeId =
        e.story.currentScenario.nodeId := by
  intro e fresh n hroot hfind
  have hni := findNode_nodeId e.story.root e.story.currentScenario.nodeId n
    hfind
  simp only [loadFromFile, saveToFile]
  rw [hroot, hfind]
  exact ⟨rfl, rfl, rfl, rfl, rfl, rfl, rfl, hni⟩

/-- Witness for C4 at a concrete input: the rich engine saved and loaded
into the fresh engine reproduces its day, stats, inventory, pack and story
node id. -/
theorem C4_witness :
    (loadFromFile freshEngine (some (saveToFile richEngine))).currentDay =
      richEngine.currentDay ∧
    (loadFromFile freshEngine (some (saveToFile richEngine))).player.health =
      richEngine.player.health ∧
    (loadFromFile freshEngine (some (saveToFile richEngine))).player.hunger =
      richEngine.player.hunger ∧
    (loadFromFile freshEngine (some (saveToFile richEngine))).player.energy =
      richEngine.player.energy ∧
    (loadFromFile freshEngine
        (some (saveToFile richEngine))).player.reputation =
      richEngine.player.reputation ∧
    (loadFromFile freshEngine
        (some (saveToFile richEngine))).player.inventory =
      richEngine.player.inventory ∧
    (loadFromFile freshEngine (some (saveToFile richEngine))).player.packHead =
      richEngine.player.packHead ∧
    (loadFromFile freshEngine
        (some (saveToFile richEngine))).story.currentScenario.nodeId =
      richEngine.story.currentScenario.nodeId :=
  C4_save_load_roundtrip richEngine freshEngine endingNode rfl rfl

/-- C9: a failed load (unreadable or corrupt file, the IOFailure case) is
all-or-nothing — it leaves the player (stats, inventory and pack), the
story position, the undo history, the action queue, the event queue and the
day counter exactly as they were; likewise a parsed session naming a story
node id absent from the tree changes nothing. -/
theorem C9_failed_load_preserves_state :
    (∀ e : GameEngine,
      (loadFromFile e none).player = e.player ∧
      (loadFromFile e none).story = e.story ∧
      (loadFromFile e none).events = e.events ∧
      (loadFromFile e none).historyStack = e.historyStack ∧
      (loadFromFile e none).actionQueue = e.actionQueue ∧
      (loadFromFile e none).currentDay = e.currentDay ∧
      loadFromFile e none = e) ∧
    (∀ (e : GameEngine) (s : SavedSession),
      findNode e.story.root s.currentNodeID = none →
      loadFromFile e (some s) = e) := by
  constructor
  · intro e
    exact ⟨rfl, rfl, rfl, rfl, rfl, rfl, rfl⟩
  · intro e s hfind
    simp only [loadFromFile]
    rw [hfind]

/-- Witness for C9 at a concrete input: loading a parsed session whose story
node id 42 is absent from the sample tree leaves the sample engine
unchanged. -/
theorem C9_witness :
    loadFromFile sampleEngine
      (some
        { day := 9, health := 1, hunger := 2, energy := 3, reputation := 4,
          items := [], pack := [], currentNodeID := 42, history := [],
          actions := [] }) = sampleEngine :=
  C9_failed_load_preserves_state.2 sampleEngine
    { day := 9, health := 1, hunger := 2, energy := 3, reputation := 4,
      items := [], pack := [], currentNodeID := 42, history := [],
      actions := [] } rfl

/-! ## Inventory first-match lemmas -/

/-- `useItem` fails (returns the no-mutation failure result) when no item of
the inventory bears the requested name. -/
theorem useItem_not_found (inv : List Item) (w : Wolf) (nm : String)
    (h : ∀ x ∈ inv, x.name ≠ nm) : useItem inv w nm = none := by
  induction inv with
  | nil => rfl
  | cons it rest ih =>
    have h1 : it.name ≠ nm := h it (List.mem_cons_self it rest)
    have h2 : ∀ x ∈ rest, x.name ≠ nm :=
      fun x hx => h x (List.mem_cons_of_mem it hx)
    simp [useItem, h1, ih h2]

/-- `useItem` consumes the first item bearing the requested name and applies
that item's effect. -/
theorem useItem_first :
    ∀ (pre post : List Item) (w : Wolf) (b : Item),
      (∀ x ∈ pre, x.name ≠ b.name) →
      useItem (pre ++ b :: post) w b.name =
        some (pre ++ post, applyItemEffect w b) := by
  intro pre
  induction pre with
  | nil => intro post w b _; simp [useItem]
  | cons it rest ih =>
    intro post w b h
    have h1 : it.name ≠ b.name := h it (List.mem_cons_self it rest)
    have h2 : ∀ x ∈ rest, x.name ≠ b.name :=
      fun x hx => h x (List.mem_cons_of_mem it hx)
    simp [useItem, h1, ih post w b h2]

/-- C6 counterexample: an inventory may contain a FOOD item named "Berry"
with effectValue 20 and yet, because lookup takes the first item by name and
names need not be unique, useItem("Berry") applies a different Berry: here
the first Berry relieves only 5 hunger, so the hunger stat of the player
(hunger 50) becomes 45, not the 50 - 20 = 30 the claim requires. -/
theorem C6_counterexample :
    berryItem ∈ [weakBerry, berryItem] ∧
    berryItem.type = ItemType.FOOD ∧
    berryItem.name = "Berry" ∧
    berryItem.effectValue = 20 ∧
    useItem [weakBerry, berryItem] wolf40 "Berry" =
      some ([berryItem], { wolf40 with hunger := 45 }) ∧
    (45 : Int) ≠ wolf40.hunger - 20 := by
  refine ⟨by decide, rfl, rfl, rfl, rfl, by decide⟩

/-- C6 (amended): for every inventory whose FIRST item named "Berry" is a
FOOD item with effectValue 20, useItem("Berry", player) succeeds, reduces
the player's hunger stat by exactly 20, and removes that first Berry item
while preserving the rest of the inventory and its order; and useItem on an
inventory with no item named "Berry" fails and mutates neither the
inventory nor the player. -/
theorem C6_useItem_berry :
    (∀ (pre post : List Item) (w : Wolf) (d : String),
      (∀ x ∈ pre, x.name ≠ "Berry") →
      useItem
        (pre ++
          { name := "Berry", type := ItemType.FOOD, effectValue := 20,
            description := d } :: post) w "Berry" =
        some (pre ++ post, { w with hunger := w.hunger - 20 })) ∧
    (∀ (inv : List Item) (w : Wolf),
      (∀ x ∈ inv, x.name ≠ "Berry") → useItem inv w "Berry" = none) := by
  constructor
  · intro pre post w d h
    exact useItem_first pre post w
      { name := "Berry", type := ItemType.FOOD, effectValue := 20,
        description := d } h
  · intro inv w h
    exact useItem_not_found inv w "Berry" h

/-- Witness for C6 at a concrete input: using the single Berry succeeds and
takes hunger from 50 to 30; using Berry on the emptied inventory fails. -/
theorem C6_witness :
    useItem ([] ++ berryItem :: []) wolf40 "Berry" =
      some (([] : List Item) ++ [],
        { wolf40 with hunger := wolf40.hunger - 20 }) ∧
    useItem [] wolf40 "Berry" = none :=
  ⟨C6_useItem_berry.1 [] [] wolf40 "A ripe berry" (by simp),
   C6_useItem_berry.2 [] wolf40 (by simp)⟩
